import Mathlib

/-!
Verification of the feature-engineering and model-training pipeline of the
baseball-analytics repository. The Python sources `feature_engineering.py`
and `train_baseline_model.py` are shallowly embedded: dataframes become
lists of records, numeric columns become rationals, and a pandas NaN
produced by an empty mean or a failed left join becomes `Option.none`.
Pandas semantics that the code relies on are embedded explicitly:
a comparison with a missing value is `false`, the mean of an empty
selection is missing, and joins are filter-based products.
-/

namespace BaseballAnalytics

/-- `amer_to_imp_prob` from feature_engineering.py: American odds to
implied probability. `if odds > 0: return 100 / (odds + 100)` and
otherwise `return -odds / (-odds + 100)`. -/
def amer_to_imp_prob (odds : ℚ) : ℚ :=
  if odds > 0 then 100 / (odds + 100)
  else -odds / (-odds + 100)

/-- Pandas `Series.mean`: the arithmetic mean of the values, or NaN
(modelled as `none`) when the selection is empty. -/
def mean (l : List ℚ) : Option ℚ :=
  if l.isEmpty then none else some (l.sum / l.length)

/-- A datetime value. `year` models `.dt.year`, `day` models the
calendar date `.dt.date` (as an abstract day index), `secs` the
time-of-day component discarded by date truncation. -/
structure Timestamp where
  year : Int
  day : Int
  secs : Nat
deriving DecidableEq, Repr

/-- One row of the `odds` relation (a bookmaker quote). -/
structure OddsQuote where
  match_time : Timestamp
  home_team : String
  away_team : String
  site : String
  market : String
  outcome : String
  odds : ℚ
deriving DecidableEq, Repr

/-- `df_odds["match_date"] = df_odds["match_time"].dt.date`. -/
def matchDate (q : OddsQuote) : Int := q.match_time.day

/-- One aggregated-odds row: the output of `agg_odds` for one group,
keyed by (home_team, away_team, match_date). -/
structure AggRow where
  home_team : String
  away_team : String
  match_date : Int
  home_odds_avg : Option ℚ
  away_odds_avg : Option ℚ
  home_imp_avg : Option ℚ
  away_imp_avg : Option ℚ
deriving DecidableEq, Repr

/-- `agg_odds` from feature_engineering.py applied to one group of
moneyline quotes with group key `(home, away, date)`: each side's mean
of raw odds and mean of per-quote implied probability over the quotes
whose `outcome` equals that side's team name. -/
def agg_odds (home away : String) (date : Int) (group : List OddsQuote) : AggRow :=
  { home_team := home
    away_team := away
    match_date := date
    home_odds_avg := mean ((group.filter (fun q => q.outcome == home)).map (fun q => q.odds))
    away_odds_avg := mean ((group.filter (fun q => q.outcome == away)).map (fun q => q.odds))
    home_imp_avg := mean ((group.filter (fun q => q.outcome == home)).map (fun q => amer_to_imp_prob q.odds))
    away_imp_avg := mean ((group.filter (fun q => q.outcome == away)).map (fun q => amer_to_imp_prob q.odds)) }

/-- The group key of a quote: `(home_team, away_team, match_date)`. -/
def quoteKey (q : OddsQuote) : String × String × Int :=
  (q.home_team, q.away_team, matchDate q)

/-- The distinct group keys of `df_ml.groupby(["home_team", "away_team", "match_date"])`. -/
def groupKeys (quotes : List OddsQuote) : List (String × String × Int) :=
  (quotes.map quoteKey).dedup

/-- `df_ml.groupby([...]).apply(agg_odds).reset_index()`: one `AggRow`
per distinct key, computed from the quotes sharing that key. -/
def aggregate (quotes : List OddsQuote) : List AggRow :=
  (groupKeys quotes).map (fun k =>
    agg_odds k.1 k.2.1 k.2.2 (quotes.filter (fun q => quoteKey q == k)))

/-- One row of the `schedule` relation as stored (columns `home`/`away`
before the rename in step 1). -/
structure SchedRow where
  gamePk : Nat
  date : Timestamp
  home : String
  away : String
  home_score : Option Int
  away_score : Option Int
  status : String
deriving DecidableEq, Repr

/-- `TEAM_NAME_MAP` from feature_engineering.py. -/
def TEAM_NAME_MAP : List (String × String) := [("Athletics", "Oakland Athletics")]

/-- `Series.replace(TEAM_NAME_MAP)` applied to one team name. -/
def normalize_name (s : String) : String :=
  match TEAM_NAME_MAP.lookup s with
  | some canon => canon
  | none => s

/-- A schedule row after steps 1 to 3 of `main`: renamed and normalized
team names, date-only key, season and previous season columns. -/
structure SchedPrep where
  gamePk : Nat
  date : Timestamp
  home_team : String
  away_team : String
  match_date : Int
  season : Int
  prev_season : Int
  home_score : Option Int
  away_score : Option Int
deriving DecidableEq, Repr

/-- Steps 1 to 3 of `main` on one schedule row: rename home/away,
normalize names through `TEAM_NAME_MAP`, derive `match_date`,
`Season` and `Prev_Season = Season - 1`. -/
def prepSched (s : SchedRow) : SchedPrep :=
  { gamePk := s.gamePk
    date := s.date
    home_team := normalize_name s.home
    away_team := normalize_name s.away
    match_date := s.date.day
    season := s.date.year
    prev_season := s.date.year - 1
    home_score := s.home_score
    away_score := s.away_score }

/-- Step 6 of `main`: `pd.merge(df_sched, agg, how="inner", on=[home_team,
away_team, match_date])`, embedded as the key-matching product. -/
def mergeSchedAgg (sched : List SchedPrep) (agg : List AggRow) : List (SchedPrep × AggRow) :=
  sched.flatMap (fun s =>
    (agg.filter (fun a =>
      a.home_team == s.home_team && a.away_team == s.away_team &&
      a.match_date == s.match_date)).map (fun a => (s, a)))

/-- One row of the `team_stats` relation (columns used by the pipeline). -/
structure TeamStat where
  team : String
  season : Int
  wins : ℚ
  losses : ℚ
deriving DecidableEq, Repr

/-- `ts["win_pct"] = ts["W"] / (ts["W"] + ts["L"])`. -/
def win_pct (t : TeamStat) : ℚ := t.wins / (t.wins + t.losses)

/-- The `win_pct` values of the stat rows matching a team and a
previous-season key (the rows a left join on `[team, Prev_Season]`
would pick up; in the code `team_stats.Season` is renamed to
`Prev_Season` before the join). -/
def wpMatches (ts : List TeamStat) (team : String) (prev : Int) : List ℚ :=
  (ts.filter (fun t => t.team == team && t.season == prev)).map win_pct

/-- Left-join semantics for one left row: no matching right row yields
a single missing value, otherwise one value per matching right row. -/
def leftJoinVals (ms : List ℚ) : List (Option ℚ) :=
  match ms with
  | [] => [none]
  | ms => ms.map some

/-- Pandas `>` on two possibly-NaN values: any comparison involving a
missing value is `false`; otherwise the strict comparison. -/
def optGt (a b : Option ℚ) : Bool :=
  match a, b with
  | some x, some y => decide (y < x)
  | _, _ => false

/-- One output row of the `game_features` table. -/
structure GameFeature where
  gamePk : Nat
  season : Int
  date : Timestamp
  home_team : String
  away_team : String
  home_odds_avg : Option ℚ
  away_odds_avg : Option ℚ
  home_imp_avg : Option ℚ
  away_imp_avg : Option ℚ
  home_win_pct : Option ℚ
  away_win_pct : Option ℚ
  home_favorite : Bool
deriving DecidableEq, Repr

/-- `main` of feature_engineering.py as a function from the three input
relations to the `game_features` rows: normalize the schedule, keep the
moneyline quotes (`market == "h2h"`), aggregate them per game key,
inner-join onto the schedule, left-join each side's previous-season
`win_pct`, and flag the home favorite. -/
def feature_main (sched : List SchedRow) (odds : List OddsQuote) (ts : List TeamStat) :
    List GameFeature :=
  let schedP := sched.map prepSched
  let df_ml := odds.filter (fun q => q.market == "h2h")
  let agg := aggregate df_ml
  let merged := mergeSchedAgg schedP agg
  merged.flatMap (fun sa =>
    (leftJoinVals (wpMatches ts sa.1.home_team sa.1.prev_season)).flatMap (fun hwp =>
      (leftJoinVals (wpMatches ts sa.1.away_team sa.1.prev_season)).map (fun awp =>
        { gamePk := sa.1.gamePk
          season := sa.1.season
          date := sa.1.date
          home_team := sa.1.home_team
          away_team := sa.1.away_team
          home_odds_avg := sa.2.home_odds_avg
          away_odds_avg := sa.2.away_odds_avg
          home_imp_avg := sa.2.home_imp_avg
          away_imp_avg := sa.2.away_imp_avg
          home_win_pct := hwp
          away_win_pct := awp
          home_favorite := optGt sa.2.home_imp_avg sa.2.away_imp_avg })))

/-- A `game_features` row as read back by train_baseline_model.py
(the columns its SELECT lists). -/
structure FeatRow where
  gamePk : Nat
  home_odds_avg : Option ℚ
  away_odds_avg : Option ℚ
  home_imp_avg : Option ℚ
  away_imp_avg : Option ℚ
  home_favorite : Bool
  date : Timestamp
deriving DecidableEq, Repr

/-- A `schedule` row as read by the trainer (gamePk and scores only). -/
structure ScoreRow where
  gamePk : Nat
  home_score : Option Int
  away_score : Option Int
deriving DecidableEq, Repr

/-- One row of the trainer's merged dataframe, with the computed
`home_win` column. -/
structure TrainRow where
  feat : FeatRow
  home_score : Option Int
  away_score : Option Int
  home_win : Nat
deriving DecidableEq, Repr

/-- Pandas `>` on two possibly-NaN integer columns: `false` when either
side is missing. -/
def optIntGt (a b : Option Int) : Bool :=
  match a, b with
  | some x, some y => decide (y < x)
  | _, _ => false

/-- Build a merged trainer row: `df["home_win"] = (df["home_score"] >
df["away_score"]).astype(int)` (a NaN comparison is `False`, so a
missing score gives `home_win = 0`). -/
def mkTrainRow (f : FeatRow) (hs as : Option Int) : TrainRow :=
  { feat := f
    home_score := hs
    away_score := as
    home_win := if optIntGt hs as then 1 else 0 }

/-- `load_data` of train_baseline_model.py: left-join feature rows with
schedule scores on `gamePk`, then derive `home_win`. -/
def load_data (feats : List FeatRow) (sched : List ScoreRow) : List TrainRow :=
  feats.flatMap (fun f =>
    match sched.filter (fun s => s.gamePk == f.gamePk) with
    | [] => [mkTrainRow f none none]
    | ms => ms.map (fun s => mkTrainRow f s.home_score s.away_score))

/-- Whether a merged row survives `df.dropna(subset=features +
["home_win"])`: the four mean columns are the only ones that can be
NaN (`home_favorite` is boolean and `home_win` is an integer column,
so neither is ever missing). -/
def hasAllFeatures (r : TrainRow) : Bool :=
  r.feat.home_odds_avg.isSome && r.feat.away_odds_avg.isSome &&
  r.feat.home_imp_avg.isSome && r.feat.away_imp_avg.isSome

/-- The `dropna` filter of `train_and_evaluate`. -/
def dropIncomplete (rows : List TrainRow) : List TrainRow :=
  rows.filter hasAllFeatures

/-- The fixed feature vector `[home_odds_avg, away_odds_avg,
home_imp_avg, away_imp_avg, home_favorite]` of one surviving row. -/
def featVec (r : TrainRow) : List ℚ :=
  [r.feat.home_odds_avg.getD 0, r.feat.away_odds_avg.getD 0,
   r.feat.home_imp_avg.getD 0, r.feat.away_imp_avg.getD 0,
   if r.feat.home_favorite then 1 else 0]

/-- The design matrix `X` and target `y` that `train_and_evaluate`
hands to `train_test_split` after the `dropna` filter. The source
performs no further check between the filter and the split. -/
def trainXy (rows : List TrainRow) : List (List ℚ) × List Nat :=
  ((dropIncomplete rows).map featVec, (dropIncomplete rows).map (fun r => r.home_win))

/-- A concrete moneyline quote for the game ("H", "A") on day 100,
with a given outcome name and odds. -/
def mkQ (outcome : String) (odds : ℚ) : OddsQuote :=
  { match_time := ⟨2024, 100, 0⟩
    home_team := "H"
    away_team := "A"
    site := "B1"
    market := "h2h"
    outcome := outcome
    odds := odds }

/-- A concrete schedule row: game 1, "H" at home against "A" on
day 100 of 2024, final score 5 to 3. -/
def s0 : SchedRow :=
  { gamePk := 1
    date := ⟨2024, 100, 30⟩
    home := "H"
    away := "A"
    home_score := some 5
    away_score := some 3
    status := "Final" }

/-- The game_features row the pipeline produces from `s0` with the
single home-side quote `mkQ "H" (-150)` and no team stats. -/
def g0 : GameFeature :=
  { gamePk := 1
    season := 2024
    date := ⟨2024, 100, 30⟩
    home_team := "H"
    away_team := "A"
    home_odds_avg := some (-150)
    away_odds_avg := none
    home_imp_avg := some (3/5)
    away_imp_avg := none
    home_win_pct := none
    away_win_pct := none
    home_favorite := false }

/-- A concrete trainer feature row with complete odds features. -/
def f0 : FeatRow :=
  { gamePk := 1
    home_odds_avg := some (-145)
    away_odds_avg := some 135
    home_imp_avg := some (59/100)
    away_imp_avg := some (43/100)
    home_favorite := true
    date := ⟨2024, 100, 30⟩ }

/-- A concrete trainer feature row whose home_odds_avg is missing. -/
def f1 : FeatRow :=
  { gamePk := 2
    home_odds_avg := none
    away_odds_avg := some 135
    home_imp_avg := some (59/100)
    away_imp_avg := some (43/100)
    home_favorite := true
    date := ⟨2024, 100, 30⟩ }

/-- A schedule score row for game 1 whose final scores are absent
(the game has not completed). -/
def sc0 : ScoreRow :=
  { gamePk := 1
    home_score := none
    away_score := none }

/-- Claim C1: the odds converter returns 100/(odds+100) for positive
odds and -odds/(-odds+100) for negative odds; for nonzero odds the
result is strictly between 0 and 1; the converter maps 150 to 0.4 and
-150 to 0.6. -/
theorem amer_to_imp_prob_spec (odds : ℚ) :
    (0 < odds → amer_to_imp_prob odds = 100 / (odds + 100)) ∧
    (odds < 0 → amer_to_imp_prob odds = -odds / (-odds + 100)) ∧
    (odds ≠ 0 → 0 < amer_to_imp_prob odds ∧ amer_to_imp_prob odds < 1) ∧
    amer_to_imp_prob 150 = 2/5 ∧ amer_to_imp_prob (-150) = 3/5 := by
  refine ⟨fun h => ?_, fun h => ?_, fun h => ?_, by norm_num [amer_to_imp_prob],
    by norm_num [amer_to_imp_prob]⟩
  · simp [amer_to_imp_prob, h]
  · simp only [amer_to_imp_prob, if_neg (not_lt.mpr h.le)]
  · rcases lt_or_gt_of_ne h with hneg | hpos
    · have h1 : (0 : ℚ) < -odds := by linarith
      have h2 : (0 : ℚ) < -odds + 100 := by linarith
      constructor
      · simp only [amer_to_imp_prob, if_neg (not_lt.mpr hneg.le)]
        exact div_pos h1 h2
      · simp only [amer_to_imp_prob, if_neg (not_lt.mpr hneg.le)]
        rw [div_lt_one h2]
        linarith
    · have h2 : (0 : ℚ) < odds + 100 := by linarith
      constructor
      · simp only [amer_to_imp_prob, if_pos hpos]
        exact div_pos (by norm_num) h2
      · simp only [amer_to_imp_prob, if_pos hpos]
        rw [div_lt_one h2]
        linarith

/-- Witness for C1: the converter evaluated at the concrete nonzero
input 150 lies strictly between 0 and 1. -/
theorem amer_to_imp_prob_spec_witness :
    0 < amer_to_imp_prob 150 ∧ amer_to_imp_prob 150 < 1 :=
  (amer_to_imp_prob_spec 150).2.2.1 (by norm_num)

/-- Claim C10: the converter is total; exactly one branch applies to
each input, each branch's denominator is at least 100 (strictly above
100 on the positive branch), the result always lies in [0, 1], and
input 0 yields exactly 0. -/
theorem amer_to_imp_prob_total (odds : ℚ) :
    (0 < odds → amer_to_imp_prob odds = 100 / (odds + 100) ∧ 100 < odds + 100) ∧
    (odds ≤ 0 → amer_to_imp_prob odds = -odds / (-odds + 100) ∧ 100 ≤ -odds + 100) ∧
    0 ≤ amer_to_imp_prob odds ∧ amer_to_imp_prob odds ≤ 1 ∧
    amer_to_imp_prob 0 = 0 := by
  refine ⟨fun h => ⟨by simp [amer_to_imp_prob, h], by linarith⟩,
    fun h => ⟨by simp only [amer_to_imp_prob, if_neg (not_lt.mpr h)], by linarith⟩,
    ?_, ?_, by norm_num [amer_to_imp_prob]⟩
  · rcases le_or_lt odds 0 with h | h
    · simp only [amer_to_imp_prob, if_neg (not_lt.mpr h)]
      have h2 : (0 : ℚ) < -odds + 100 := by linarith
      exact div_nonneg (by linarith) h2.le
    · simp only [amer_to_imp_prob, if_pos h]
      have h2 : (0 : ℚ) < odds + 100 := by linarith
      exact (div_pos (by norm_num) h2).le
  · rcases le_or_lt odds 0 with h | h
    · simp only [amer_to_imp_prob, if_neg (not_lt.mpr h)]
      have h2 : (0 : ℚ) < -odds + 100 := by linarith
      rw [div_le_one h2]
      linarith
    · simp only [amer_to_imp_prob, if_pos h]
      have h2 : (0 : ℚ) < odds + 100 := by linarith
      rw [div_le_one h2]
      linarith

/-- Witness for C10: at the concrete input -200 the nonpositive branch
applies with denominator at least 100. -/
theorem amer_to_imp_prob_total_witness :
    amer_to_imp_prob (-200) = -(-200 : ℚ) / (-(-200 : ℚ) + 100) ∧
    (100 : ℚ) ≤ -(-200 : ℚ) + 100 :=
  (amer_to_imp_prob_total (-200)).2.1 (by norm_num)

/-- Dropping the quotes that match neither side leaves the home-side
selection unchanged. -/
theorem filter_or_filter_left (group : List OddsQuote) (home away : String) :
    (group.filter (fun q => q.outcome == home || q.outcome == away)).filter
      (fun q => q.outcome == home) = group.filter (fun q => q.outcome == home) := by
  rw [List.filter_filter]
  congr 1
  funext q
  cases h : q.outcome == home <;> simp [h]

/-- Dropping the quotes that match neither side leaves the away-side
selection unchanged. -/
theorem filter_or_filter_right (group : List OddsQuote) (home away : String) :
    (group.filter (fun q => q.outcome == home || q.outcome == away)).filter
      (fun q => q.outcome == away) = group.filter (fun q => q.outcome == away) := by
  rw [List.filter_filter]
  congr 1
  funext q
  cases h : q.outcome == away <;> simp [h]

/-- Claim C2: quotes whose outcome matches neither side contribute to
no average; each side's odds average and implied-probability average
are the means over exactly the quotes matching that side, the latter
taken per quote through the converter; an empty side yields missing
values; and two home quotes at -120 and -130 average to -125, while a
per-quote probability mean differs from the probability of the mean
odds on a concrete two-quote group. -/
theorem agg_odds_spec (home away : String) (d : Int) (group : List OddsQuote) :
    agg_odds home away d
        (group.filter (fun q => q.outcome == home || q.outcome == away)) =
      agg_odds home away d group ∧
    ((group.filter (fun q => q.outcome == home)) = [] →
      (agg_odds home away d group).home_odds_avg = none ∧
        (agg_odds home away d group).home_imp_avg = none) ∧
    ((group.filter (fun q => q.outcome == away)) = [] →
      (agg_odds home away d group).away_odds_avg = none ∧
        (agg_odds home away d group).away_imp_avg = none) ∧
    (agg_odds home away d group).home_imp_avg =
      mean ((group.filter (fun q => q.outcome == home)).map
        (fun q => amer_to_imp_prob q.odds)) ∧
    (agg_odds "H" "A" 100 [mkQ "H" (-120), mkQ "H" (-130)]).home_odds_avg =
      some (-125) ∧
    (agg_odds "H" "A" 100 [mkQ "H" 100, mkQ "H" 300]).home_imp_avg =
      some ((amer_to_imp_prob 100 + amer_to_imp_prob 300) / 2) ∧
    (agg_odds "H" "A" 100 [mkQ "H" 100, mkQ "H" 300]).home_imp_avg ≠
      some (amer_to_imp_prob ((100 + 300) / 2)) := by
  refine ⟨?_, fun h => ?_, fun h => ?_, rfl, by norm_num [agg_odds, mkQ, mean],
    by norm_num [agg_odds, mkQ, mean], by norm_num [agg_odds, mkQ, mean, amer_to_imp_prob]⟩
  · simp only [agg_odds, filter_or_filter_left, filter_or_filter_right]
  · simp [agg_odds, h, mean]
  · simp [agg_odds, h, mean]

/-- Witness for C2: on the empty group both home-side averages are
missing. -/
theorem agg_odds_spec_witness :
    (agg_odds "H" "A" 100 []).home_odds_avg = none ∧
      (agg_odds "H" "A" 100 []).home_imp_avg = none :=
  (agg_odds_spec "H" "A" 100 []).2.1 rfl

/-- Every aggregated row's key occurs as the key of some quote in the
input: groups only exist where quotes exist. -/
theorem mem_aggregate {quotes : List OddsQuote} {a : AggRow}
    (ha : a ∈ aggregate quotes) :
    ∃ q ∈ quotes, q.home_team = a.home_team ∧ q.away_team = a.away_team ∧
      matchDate q = a.match_date := by
  simp only [aggregate, groupKeys, List.mem_map, List.mem_dedup] at ha
  obtain ⟨k, ⟨q, hq, hk⟩, rfl⟩ := ha
  refine ⟨q, hq, ?_, ?_, ?_⟩ <;>
    simp [agg_odds, ← hk, quoteKey]

/-- Every quote key gives rise to an aggregated row: the `agg_odds` of
the quotes sharing the key of a quote in the input is in the output. -/
theorem aggregate_mem_of_key {quotes : List OddsQuote} {q : OddsQuote} (hq : q ∈ quotes) :
    agg_odds q.home_team q.away_team (matchDate q)
        (quotes.filter (fun r => quoteKey r == quoteKey q)) ∈ aggregate quotes := by
  simp only [aggregate, List.mem_map, groupKeys, List.mem_dedup]
  exact ⟨quoteKey q, ⟨q, hq, rfl⟩, rfl⟩

/-- The left-join value list is never empty: a left row always
survives, with `none` when there is no match. -/
theorem leftJoinVals_exists_mem (ms : List ℚ) : ∃ x, x ∈ leftJoinVals ms := by
  cases ms with
  | nil => exact ⟨none, by simp [leftJoinVals]⟩
  | cons m ms => exact ⟨some m, by simp [leftJoinVals]⟩

/-- Membership in the left-join value list: `none` exactly when there
is no matching right row, otherwise one of the matched values. -/
theorem mem_leftJoinVals {ms : List ℚ} {x : Option ℚ} (hx : x ∈ leftJoinVals ms) :
    (ms = [] ∧ x = none) ∨ ∃ m ∈ ms, x = some m := by
  cases ms with
  | nil =>
      left
      simp only [leftJoinVals, List.mem_singleton] at hx
      exact ⟨rfl, hx⟩
  | cons m ms =>
      right
      simp only [leftJoinVals, List.mem_map] at hx
      obtain ⟨b, hb, hbx⟩ := hx
      exact ⟨b, hb, hbx.symm⟩

/-- Unpacking a `game_features` row: it originates from a schedule row
and an aggregated-odds row agreeing on the normalized key, carries
their fields, and its win-pct columns come from the previous-season
left joins. -/
theorem mem_feature_main {sched : List SchedRow} {odds : List OddsQuote}
    {ts : List TeamStat} {g : GameFeature}
    (hg : g ∈ feature_main sched odds ts) :
    ∃ s ∈ sched, ∃ a ∈ aggregate (odds.filter (fun q => q.market == "h2h")),
      a.home_team = (prepSched s).home_team ∧
      a.away_team = (prepSched s).away_team ∧
      a.match_date = (prepSched s).match_date ∧
      g.gamePk = s.gamePk ∧ g.season = (prepSched s).season ∧ g.date = s.date ∧
      g.home_team = (prepSched s).home_team ∧ g.away_team = (prepSched s).away_team ∧
      g.home_odds_avg = a.home_odds_avg ∧ g.away_odds_avg = a.away_odds_avg ∧
      g.home_imp_avg = a.home_imp_avg ∧ g.away_imp_avg = a.away_imp_avg ∧
      g.home_favorite = optGt a.home_imp_avg a.away_imp_avg ∧
      g.home_win_pct ∈
        leftJoinVals (wpMatches ts (prepSched s).home_team (prepSched s).prev_season) ∧
      g.away_win_pct ∈
        leftJoinVals (wpMatches ts (prepSched s).away_team (prepSched s).prev_season) := by
  simp only [feature_main, mergeSchedAgg, List.mem_flatMap, List.mem_map,
    List.mem_filter] at hg
  obtain ⟨sa, ⟨sP, ⟨s, hs, rfl⟩, a, ⟨hain, hkey⟩, rfl⟩, hwp, hhwp, awp, hawp, rfl⟩ := hg
  obtain ⟨kha, kd⟩ := Bool.and_eq_true_iff.mp hkey
  obtain ⟨kh, ka⟩ := Bool.and_eq_true_iff.mp kha
  exact ⟨s, hs, a, hain, eq_of_beq kh, eq_of_beq ka, eq_of_beq kd,
    rfl, rfl, rfl, rfl, rfl, rfl, rfl, rfl, rfl, rfl, hhwp, hawp⟩

/-- Concrete run of the whole feature pipeline: one scheduled game,
one home-side moneyline quote, no team stats. -/
theorem feature_main_single_eval :
    feature_main [s0] [mkQ "H" (-150)] [] = [g0] := by
  have h1 : ([mkQ "H" (-150)].filter (fun q => q.market == "h2h")) =
      [mkQ "H" (-150)] := by
    simp [mkQ]
  have h2 : aggregate [mkQ "H" (-150)] =
      [agg_odds "H" "A" 100 [mkQ "H" (-150)]] := by
    simp [aggregate, groupKeys, quoteKey, matchDate, mkQ]
  have hfA : ([mkQ "H" (-150)].filter (fun q => q.outcome == "A")) = [] := by
    simp [mkQ]
  have hfH : ([mkQ "H" (-150)].filter (fun q => q.outcome == "H")) =
      [mkQ "H" (-150)] := by
    simp [mkQ]
  have h3 : agg_odds "H" "A" 100 [mkQ "H" (-150)] =
      ⟨"H", "A", 100, some (-150), none, some (3/5), none⟩ := by
    simp only [agg_odds, hfA, hfH]
    norm_num [mean, mkQ, amer_to_imp_prob]
  have h4 : prepSched s0 =
      ⟨1, ⟨2024, 100, 30⟩, "H", "A", 100, 2024, 2023, some 5, some 3⟩ := rfl
  simp only [feature_main, List.map_cons, List.map_nil, h1, h2, h3, h4]
  simp [mergeSchedAgg, wpMatches, leftJoinVals, g0, optGt]

/-- Claim C4: a scheduled game whose key (normalized home team, away
team, match date) matches no moneyline quote is excluded from the
game_features output entirely: no output row carries that key. -/
theorem no_quotes_no_feature_row (sched : List SchedRow) (odds : List OddsQuote)
    (ts : List TeamStat) (home away : String) (d : Int)
    (h : ∀ q ∈ odds, q.market = "h2h" →
      ¬(q.home_team = home ∧ q.away_team = away ∧ matchDate q = d)) :
    ∀ g ∈ feature_main sched odds ts,
      ¬(g.home_team = home ∧ g.away_team = away ∧ g.date.day = d) := by
  rintro g hg ⟨h1, h2, h3⟩
  obtain ⟨s, hs, a, ha, ah, aa, ad, hpk, hseason, hdate, ghome, gaway,
    ho1, ho2, ho3, ho4, hfav, hh1, hh2⟩ := mem_feature_main hg
  obtain ⟨q, hq, qh, qa, qd⟩ := mem_aggregate ha
  obtain ⟨hqo, hqm⟩ := List.mem_filter.mp hq
  refine h q hqo (eq_of_beq hqm) ⟨?_, ?_, ?_⟩
  · rw [qh, ah, ← ghome, h1]
  · rw [qa, aa, ← gaway, h2]
  · rw [qd, ad]
    show s.date.day = d
    rw [← hdate]
    exact h3

/-- Witness for C4: in the concrete single-game run, no output row
carries the key ("H", "B", 100), since the lone quote is for away
team "A", not "B". -/
theorem no_quotes_no_feature_row_witness :
    ¬(g0.home_team = "H" ∧ g0.away_team = "B" ∧ g0.date.day = 100) :=
  no_quotes_no_feature_row [s0] [mkQ "H" (-150)] [] "H" "B" 100
    (by decide) g0 (feature_main_single_eval ▸ List.mem_singleton.mpr rfl)

/-- Counterexample to claim C5: a game whose quotes cover only the
home side still yields a game_features row; the away averages are
missing rather than the row being excluded. -/
theorem one_sided_coverage_row_exists :
    feature_main [s0] [mkQ "H" (-150)] [] = [g0] ∧
    g0.away_odds_avg = none ∧ g0.away_imp_avg = none ∧
    g0.home_odds_avg = some (-150) :=
  ⟨feature_main_single_eval, rfl, rfl, rfl⟩

/-- Claim C5 as amended: a game_features row exists for every
scheduled game with at least one moneyline quote on its key,
regardless of which side (if any) the quote prices; there is no
both-sides admission requirement. -/
theorem quote_coverage_yields_row (sched : List SchedRow) (odds : List OddsQuote)
    (ts : List TeamStat) (s : SchedRow) (q : OddsQuote) (hs : s ∈ sched)
    (hq : q ∈ odds) (hm : q.market = "h2h")
    (hh : q.home_team = (prepSched s).home_team)
    (ha : q.away_team = (prepSched s).away_team)
    (hd : matchDate q = (prepSched s).match_date) :
    ∃ g ∈ feature_main sched odds ts,
      g.gamePk = s.gamePk ∧ g.home_team = (prepSched s).home_team ∧
      g.away_team = (prepSched s).away_team ∧ g.date = s.date := by
  have hqml : q ∈ odds.filter (fun r => r.market == "h2h") :=
    List.mem_filter.mpr ⟨hq, by simp [hm]⟩
  have hagg := aggregate_mem_of_key hqml
  obtain ⟨hwp, hhwp⟩ := leftJoinVals_exists_mem
    (wpMatches ts (prepSched s).home_team (prepSched s).prev_season)
  obtain ⟨awp, hawp⟩ := leftJoinVals_exists_mem
    (wpMatches ts (prepSched s).away_team (prepSched s).prev_season)
  simp only [feature_main, mergeSchedAgg, List.mem_flatMap, List.mem_map,
    List.mem_filter]
  refine ⟨_, ⟨(prepSched s,
      agg_odds q.home_team q.away_team (matchDate q)
        ((odds.filter (fun r => r.market == "h2h")).filter
          (fun r => quoteKey r == quoteKey q))),
    ⟨prepSched s, ⟨s, hs, rfl⟩,
      ⟨_, ⟨hagg, ?_⟩, rfl⟩⟩, hwp, hhwp, awp, hawp, rfl⟩, rfl, hh ▸ rfl, ha ▸ rfl, rfl⟩
  simp only [agg_odds, hh, ha, hd]
  simp

/-- Witness for C5 as amended: the concrete single-quote run yields a
row for game 1. -/
theorem quote_coverage_yields_row_witness :
    ∃ g ∈ feature_main [s0] [mkQ "H" (-150)] [],
      g.gamePk = s0.gamePk ∧ g.home_team = (prepSched s0).home_team ∧
      g.away_team = (prepSched s0).away_team ∧ g.date = s0.date :=
  quote_coverage_yields_row [s0] [mkQ "H" (-150)] [] s0 (mkQ "H" (-150))
    (List.mem_singleton.mpr rfl) (List.mem_singleton.mpr rfl) rfl
    (by decide) (by decide) rfl

/-- Claim C6: every win-pct column of a game_features row comes from
a team-stats row of the season before the game's season (the season
being predicted never supplies it), and a side with no prior-season
stats row gets a missing value while the game row itself remains. -/
theorem win_pct_prior_season (sched : List SchedRow) (odds : List OddsQuote)
    (ts : List TeamStat) :
    ∀ g ∈ feature_main sched odds ts,
      ((∀ t ∈ ts, ¬(t.team = g.home_team ∧ t.season = g.season - 1)) →
        g.home_win_pct = none) ∧
      (∀ w, g.home_win_pct = some w →
        ∃ t ∈ ts, t.team = g.home_team ∧ t.season = g.season - 1 ∧ w = win_pct t) ∧
      ((∀ t ∈ ts, ¬(t.team = g.away_team ∧ t.season = g.season - 1)) →
        g.away_win_pct = none) ∧
      (∀ w, g.away_win_pct = some w →
        ∃ t ∈ ts, t.team = g.away_team ∧ t.season = g.season - 1 ∧ w = win_pct t) := by
  intro g hg
  obtain ⟨s, hs, a, ha, ah, aa, ad, hpk, hseason, hdate, ghome, gaway,
    ho1, ho2, ho3, ho4, hfav, hh1, hh2⟩ := mem_feature_main hg
  have hprev : (prepSched s).prev_season = g.season - 1 := by
    rw [hseason]
    rfl
  constructor
  · intro hnone
    rcases mem_leftJoinVals hh1 with ⟨-, hx⟩ | ⟨m, hm, hx⟩
    · exact hx
    · exfalso
      simp only [wpMatches, List.mem_map, List.mem_filter,
        Bool.and_eq_true_iff] at hm
      obtain ⟨t, ⟨htin, hteam, hseas⟩, -⟩ := hm
      exact hnone t htin ⟨ghome ▸ eq_of_beq hteam, hprev ▸ eq_of_beq hseas⟩
  constructor
  · intro w hw
    rcases mem_leftJoinVals hh1 with ⟨-, hx⟩ | ⟨m, hm, hx⟩
    · rw [hw] at hx
      exact absurd hx (by simp)
    · simp only [wpMatches, List.mem_map, List.mem_filter,
        Bool.and_eq_true_iff] at hm
      obtain ⟨t, ⟨htin, hteam, hseas⟩, hval⟩ := hm
      refine ⟨t, htin, ghome ▸ eq_of_beq hteam, hprev ▸ eq_of_beq hseas, ?_⟩
      rw [hw] at hx
      rw [hval]
      exact Option.some.inj hx
  constructor
  · intro hnone
    rcases mem_leftJoinVals hh2 with ⟨-, hx⟩ | ⟨m, hm, hx⟩
    · exact hx
    · exfalso
      simp only [wpMatches, List.mem_map, List.mem_filter,
        Bool.and_eq_true_iff] at hm
      obtain ⟨t, ⟨htin, hteam, hseas⟩, -⟩ := hm
      exact hnone t htin ⟨gaway ▸ eq_of_beq hteam, hprev ▸ eq_of_beq hseas⟩
  · intro w hw
    rcases mem_leftJoinVals hh2 with ⟨-, hx⟩ | ⟨m, hm, hx⟩
    · rw [hw] at hx
      exact absurd hx (by simp)
    · simp only [wpMatches, List.mem_map, List.mem_filter,
        Bool.and_eq_true_iff] at hm
      obtain ⟨t, ⟨htin, hteam, hseas⟩, hval⟩ := hm
      refine ⟨t, htin, gaway ▸ eq_of_beq hteam, hprev ▸ eq_of_beq hseas, ?_⟩
      rw [hw] at hx
      rw [hval]
      exact Option.some.inj hx

/-- Witness for C6: in the concrete run with no team stats at all, the
home win-pct of the produced row is missing and the row exists. -/
theorem win_pct_prior_season_witness : g0.home_win_pct = none :=
  (win_pct_prior_season [s0] [mkQ "H" (-150)] [] g0
    (feature_main_single_eval ▸ List.mem_singleton.mpr rfl)).1 (by simp)

/-- Claim C7: the home_favorite flag of every game_features row is the
strict pandas comparison of the two implied-probability averages:
false whenever either side is missing, false on ties, and true exactly
when the home average strictly exceeds the away average. -/
theorem home_favorite_spec (sched : List SchedRow) (odds : List OddsQuote)
    (ts : List TeamStat) :
    (∀ g ∈ feature_main sched odds ts,
      g.home_favorite = optGt g.home_imp_avg g.away_imp_avg) ∧
    (∀ b : Option ℚ, optGt none b = false) ∧
    (∀ a : Option ℚ, optGt a none = false) ∧
    (∀ x : ℚ, optGt (some x) (some x) = false) ∧
    (∀ x y : ℚ, optGt (some x) (some y) = true ↔ y < x) := by
  refine ⟨?_, fun b => rfl, fun a => by cases a <;> rfl,
    fun x => by simp [optGt], fun x y => by simp [optGt]⟩
  intro g hg
  obtain ⟨s, hs, a, ha, ah, aa, ad, hpk, hseason, hdate, ghome, gaway,
    ho1, ho2, ho3, ho4, hfav, hh1, hh2⟩ := mem_feature_main hg
  rw [hfav, ho3, ho4]

/-- Witness for C7: the concrete row's flag (home average present,
away average missing) is false, as the strict comparison dictates. -/
theorem home_favorite_spec_witness :
    g0.home_favorite = optGt g0.home_imp_avg g0.away_imp_avg :=
  (home_favorite_spec [s0] [mkQ "H" (-150)] []).1 g0
    (feature_main_single_eval ▸ List.mem_singleton.mpr rfl)

/-- Claim C3 failing case: a game whose final scores are missing is
not excluded by the trainer. After the left join the NaN score
comparison evaluates to false, so `home_win` becomes 0 instead of
missing, and the dropna filter (whose only possibly-missing columns
are the four odds features) keeps the row: the unfinished game enters
training labelled as a home loss. -/
theorem missing_scores_row_kept :
    load_data [f0] [sc0] = [mkTrainRow f0 none none] ∧
    dropIncomplete (load_data [f0] [sc0]) = [mkTrainRow f0 none none] ∧
    (mkTrainRow f0 none none).home_win = 0 ∧
    (mkTrainRow f0 none none).home_score = none :=
  ⟨rfl, rfl, rfl, rfl⟩

/-- Counterexample to claim C8: a record with odds == 0 is not
skipped. Adding it to a group changes the home implied-probability
average from 3/5 to 3/10, so the zero-odds quote does contribute to
aggregation. -/
theorem zero_odds_contributes :
    (agg_odds "H" "A" 100 [mkQ "H" 0, mkQ "H" (-150)]).home_imp_avg ≠
      (agg_odds "H" "A" 100 [mkQ "H" (-150)]).home_imp_avg ∧
    (agg_odds "H" "A" 100 [mkQ "H" 0, mkQ "H" (-150)]).home_imp_avg =
      some (3/10) ∧
    (agg_odds "H" "A" 100 [mkQ "H" (-150)]).home_imp_avg = some (3/5) := by
  refine ⟨?_, ?_, ?_⟩ <;> norm_num [agg_odds, mkQ, mean, amer_to_imp_prob]

/-- Claim C8 as amended: a record with odds == 0 is not skipped and
does not crash the batch: the converter's nonpositive branch maps it
to probability 0, it remains in its side's selection, and that side's
averages are present (the zero quote contributing probability 0 and
odds 0 to the means). -/
theorem zero_odds_included (home away : String) (d : Int) (group : List OddsQuote)
    (q : OddsQuote) (hq : q ∈ group) (hodds : q.odds = 0) (hout : q.outcome = home) :
    amer_to_imp_prob q.odds = 0 ∧
    q ∈ group.filter (fun r => r.outcome == home) ∧
    (agg_odds home away d group).home_imp_avg ≠ none ∧
    (agg_odds home away d group).home_odds_avg ≠ none := by
  have hmem : q ∈ group.filter (fun r => r.outcome == home) :=
    List.mem_filter.mpr ⟨hq, by simp [hout]⟩
  have hne : group.filter (fun r => r.outcome == home) ≠ [] :=
    List.ne_nil_of_mem hmem
  refine ⟨by rw [hodds]; norm_num [amer_to_imp_prob], hmem, ?_, ?_⟩ <;>
    simp [agg_odds, mean, List.isEmpty_iff, hne]

/-- Witness for C8 as amended: the concrete zero-odds home quote stays
in the selection and leaves the home averages present. -/
theorem zero_odds_included_witness :
    amer_to_imp_prob (mkQ "H" 0).odds = 0 ∧
    mkQ "H" 0 ∈ [mkQ "H" 0].filter (fun r => r.outcome == "H") ∧
    (agg_odds "H" "A" 100 [mkQ "H" 0]).home_imp_avg ≠ none ∧
    (agg_odds "H" "A" 100 [mkQ "H" 0]).home_odds_avg ≠ none :=
  zero_odds_included "H" "A" 100 [mkQ "H" 0] (mkQ "H" 0)
    (List.mem_singleton.mpr rfl) rfl rfl

/-- Counterexample to claim C9: when the missing-value filter drops
every row the trainer does not stop with its own diagnostic; it
proceeds, producing an empty design matrix and an empty target vector
for the train/test split (the source has no emptiness check between
the filter and the split). -/
theorem empty_training_set_proceeds :
    dropIncomplete (load_data [f1] [sc0]) = [] ∧
    trainXy (load_data [f1] [sc0]) = ([], []) :=
  ⟨rfl, rfl⟩

/-- Claim C9 as amended: the trainer has no explicit zero-row check:
whenever every merged row is missing an odds feature, the filter
leaves nothing and the trainer still hands the empty matrix and target
to the library split instead of failing with a diagnostic of its
own. -/
theorem all_dropped_yields_empty_split_input (rows : List TrainRow)
    (h : ∀ r ∈ rows, hasAllFeatures r = false) :
    dropIncomplete rows = [] ∧ trainXy rows = ([], []) := by
  have hd : dropIncomplete rows = [] := by
    simp only [dropIncomplete, List.filter_eq_nil_iff]
    intro r hr
    simp [h r hr]
  exact ⟨hd, by simp [trainXy, hd]⟩

/-- Witness for C9 as amended: the single-row table whose one row
misses home_odds_avg is dropped entirely and the split input is
empty. -/
theorem all_dropped_yields_empty_split_input_witness :
    dropIncomplete [mkTrainRow f1 none none] = [] ∧
    trainXy [mkTrainRow f1 none none] = ([], []) :=
  all_dropped_yields_empty_split_input [mkTrainRow f1 none none]
    (by intro r hr; simp only [List.mem_singleton] at hr; subst hr; rfl)

end BaseballAnalytics
